import Mathlib

/-!
Verification of the gino aiomysql dialect (src/src/gino/dialects/aiomysql.py)
against its natural-language specification.

The Python source is shallowly embedded: every connection-level side effect
(BEGIN/COMMIT/ROLLBACK commands, SQL statements issued through a cursor) is
recorded as a `ConnOp` event; asynchronous waits are modelled by a wall-clock
duration parameter together with the semantics of a bounded wait
(`asyncio.wait_for`); fallible code returns `Except` or pairs its result with
an `Option` error.  Durations are rationals.
-/

/-- A side effect observable on a raw database connection: the begin/commit/
rollback commands (`conn.begin()` etc.) and SQL text issued through a cursor
or `conn.query`. -/
inductive ConnOp where
  | begin
  | commit
  | rollback
  | execute (sql : String)
  deriving DecidableEq, Repr

/-- Outcome of a (possibly bounded) asynchronous wait. -/
inductive WaitRes where
  | ok
  | timedOut
  deriving DecidableEq, Repr

/-- Semantics of `asyncio.wait_for(fut, timeout)` (and of the driver-level
bounded waits), as a function of the wait's required duration `d`:
an unbounded wait (`timeout is None`) always completes; a bounded wait with a
non-positive remaining budget completes only if the awaited result is already
available (`d ≤ 0`), otherwise it raises `TimeoutError` immediately; a
positive budget `t` completes iff the result arrives within `t`. -/
def wait_for (timeout : Option Rat) (d : Rat) : WaitRes :=
  match timeout with
  | none => WaitRes.ok
  | some t =>
      if t ≤ 0 then (if d ≤ 0 then WaitRes.ok else WaitRes.timedOut)
      else (if d ≤ t then WaitRes.ok else WaitRes.timedOut)

/-- State of the underlying `aiomysql` pool: the idle (free) connections in
order, plus a counter minting fresh connections when the free list is empty
(the raw pool creates new connections on demand).  Connections are identified
by naturals. -/
structure RawPoolState where
  idle : List Nat
  nextFresh : Nat
  deriving DecidableEq, Repr

/-- `self._pool.acquire()`: hand out the first idle connection, or mint a
fresh one when the idle list is empty. -/
def rawAcquire (p : RawPoolState) : Nat × RawPoolState :=
  match p.idle with
  | c :: rest => (c, { p with idle := rest })
  | [] => (p.nextFresh, { p with nextFresh := p.nextFresh + 1 })

/-- `self._pool.release(conn)`: the connection rejoins the idle set. -/
def rawRelease (conn : Nat) (p : RawPoolState) : RawPoolState :=
  { p with idle := p.idle ++ [conn] }

/-- Error outcome of `Pool.acquire`: the `asyncio.TimeoutError` raised by the
bounded wait, or the post-connect hook's own error re-raised (payload `e`
carried unchanged). -/
inductive AcquireErr (E : Type) where
  | timeout
  | hookFailed (e : E)
  deriving DecidableEq, Repr

/-- `Pool.acquire` (aiomysql.py lines 232-243).  `conn_init` is the optional
post-connect hook (`self._conn_init`); `waitDur` is the wall-clock time the
underlying pool needs to produce a connection.  Faithful to the source: an
unbounded timeout awaits the raw acquire directly, a bounded one goes through
`asyncio.wait_for`; a configured hook runs on the fresh connection and on any
hook error the connection is released back to the pool before the error is
re-raised. -/
def Pool.acquire {E : Type} (conn_init : Option (Nat → Except E Unit))
    (timeout : Option Rat) (waitDur : Rat) (p : RawPoolState) :
    Except (AcquireErr E) Nat × RawPoolState :=
  match wait_for timeout waitDur with
  | WaitRes.timedOut => (Except.error AcquireErr.timeout, p)
  | WaitRes.ok =>
      let (conn, p1) := rawAcquire p
      match conn_init with
      | none => (Except.ok conn, p1)
      | some hook =>
          match hook conn with
          | Except.ok _ => (Except.ok conn, p1)
          | Except.error e => (Except.error (AcquireErr.hookFailed e), rawRelease conn p1)

/-- Outcome of `DBAPICursor.prepare` (aiomysql.py lines 150-166), seen through
its timeout plumbing: either the acquire wait timed out, or the prepare wait
timed out, or the statement was prepared.  In the latter two cases
`passedTimeout` records the timeout value actually handed to `conn.prepare`. -/
inductive PrepOutcome where
  | acquireTimedOut
  | prepareTimedOut (passedTimeout : Option Rat)
  | prepared (passedTimeout : Option Rat)
  deriving DecidableEq, Repr

/-- `DBAPICursor.prepare` (aiomysql.py lines 150-166).  `acquireDur` and
`prepareDur` are the wall-clock durations of the two blocking steps.  The
source either awaits acquire unbounded (timeout `None`) or measures the
elapsed time of the bounded acquire and subtracts it from the budget before
handing the budget to `conn.prepare`. -/
def DBAPICursor.prepare_chain (timeout : Option Rat) (acquireDur prepareDur : Rat) :
    PrepOutcome :=
  match timeout with
  | none =>
      match wait_for none acquireDur with
      | WaitRes.timedOut => PrepOutcome.acquireTimedOut
      | WaitRes.ok =>
          match wait_for none prepareDur with
          | WaitRes.timedOut => PrepOutcome.prepareTimedOut none
          | WaitRes.ok => PrepOutcome.prepared none
  | some t =>
      match wait_for (some t) acquireDur with
      | WaitRes.timedOut => PrepOutcome.acquireTimedOut
      | WaitRes.ok =>
          match wait_for (some (t - acquireDur)) prepareDur with
          | WaitRes.timedOut => PrepOutcome.prepareTimedOut (some (t - acquireDur))
          | WaitRes.ok => PrepOutcome.prepared (some (t - acquireDur))

/-- Outcome of `DBAPICursor.async_execute` (aiomysql.py lines 168-184), seen
through its timeout plumbing: the acquire wait may time out; once a
connection is held, `conn.query(query)` is awaited WITHOUT any timeout
argument, so the execute step always completes.  `unusedRemaining` records
the decremented budget the source computes and then never uses. -/
inductive ExecOutcome where
  | acquireTimedOut
  | executed (unusedRemaining : Option Rat)
  deriving DecidableEq, Repr

/-- `DBAPICursor.async_execute` (aiomysql.py lines 168-184), timeout plumbing
only.  The source measures the elapsed time of a bounded acquire and performs
`timeout -= after - before`, but the following `conn.query(query)` call takes
no timeout argument: the remaining budget is never passed onward and the
query wait is unbounded (`queryDur` cannot make it fail). -/
def DBAPICursor.async_execute_chain (timeout : Option Rat)
    (acquireDur queryDur : Rat) : ExecOutcome :=
  match timeout with
  | none =>
      match wait_for none acquireDur with
      | WaitRes.timedOut => ExecOutcome.acquireTimedOut
      | WaitRes.ok =>
          match wait_for none queryDur with
          | WaitRes.timedOut => ExecOutcome.executed none
          | WaitRes.ok => ExecOutcome.executed none
  | some t =>
      match wait_for (some t) acquireDur with
      | WaitRes.timedOut => ExecOutcome.acquireTimedOut
      | WaitRes.ok =>
          match wait_for none queryDur with
          | WaitRes.timedOut => ExecOutcome.executed (some (t - acquireDur))
          | WaitRes.ok => ExecOutcome.executed (some (t - acquireDur))

/-- Parameter collections accepted by `DBAPICursor._escape_args`: Python
tuples, lists, dicts (association lists, insertion-ordered like Python
dicts), or any other single value treated as a scalar. -/
inductive PyArgs (V : Type) where
  | tup (elems : List V)
  | lst (elems : List V)
  | dct (pairs : List (String × V))
  | scalar (v : V)
  deriving DecidableEq, Repr

/-- Run a fallible function over a list in order, stopping at the first
failure (the semantics of a Python generator expression over `conn.escape`
inside a `tuple(...)`/`dict(...)` constructor). -/
def mapExcept {V E W : Type} (f : V → Except E W) : List V → Except E (List W)
  | [] => Except.ok []
  | v :: rest =>
      match f v with
      | Except.error e => Except.error e
      | Except.ok w => (mapExcept f rest).map (fun ws => w :: ws)

/-- `DBAPICursor._escape_args` (aiomysql.py lines 186-194).  `escape` is the
connection's dialect-aware escaper (`conn.escape`), which may fail with a
value error.  Tuples and lists are rebuilt elementwise into a tuple, dicts
valuewise keeping their keys, and anything else is escaped directly as a
scalar; any escaping failure propagates. -/
def DBAPICursor._escape_args {V E : Type} (escape : V → Except E V) :
    PyArgs V → Except E (PyArgs V)
  | PyArgs.tup elems => (mapExcept escape elems).map PyArgs.tup
  | PyArgs.lst elems => (mapExcept escape elems).map PyArgs.tup
  | PyArgs.dct pairs =>
      (mapExcept (fun kv => (escape kv.2).map (fun w => (kv.1, w))) pairs).map
        PyArgs.dct
  | PyArgs.scalar v => (escape v).map PyArgs.scalar

/-- `AiomysqlCursor.next` (aiomysql.py lines 104-110).  `fetched` is the row
returned by the driver's `fetchrow` (`none` when there is no row; a row is a
list of column values and may be empty).  The source tests the row for
Python falsiness (`if not row`), which holds both for `None` and for an
empty row, and only a truthy row goes through
`self._context.process_rows([row])[0]`.  The second component counts how many
times the row post-processing pipeline was invoked. -/
def AiomysqlCursor.next {A B : Type} (process : List A → B)
    (fetched : Option (List A)) : Option B × Nat :=
  match fetched with
  | none => (none, 0)
  | some row =>
      if row.isEmpty then (none, 0)
      else (some (process row), 1)

/-- Two consecutive underscores never occur: Python `int()` rejects
consecutive underscores in a numeric literal string. -/
def noDoubleUnderscore : List Char → Bool
  | [] => true
  | [_] => true
  | a :: b :: rest => !(a = '_' && b = '_') && noDoubleUnderscore (b :: rest)

/-- Decimal value of a digit list (underscores already removed). -/
def digitsVal (cs : List Char) : Int :=
  cs.foldl (fun v c => v * 10 + (Int.ofNat (c.toNat - '0'.toNat))) 0

/-- The digit-and-underscore body of a Python `int()` literal: nonempty, only
digits and underscores, starts and ends with a digit, no two consecutive
underscores. -/
def pyIntBody (cs : List Char) : Bool :=
  (!cs.isEmpty)
    && cs.all (fun c => c.isDigit || c = '_')
    && (match cs.head? with | some c => c.isDigit | none => false)
    && (match cs.getLast? with | some c => c.isDigit | none => false)
    && noDoubleUnderscore cs

/-- Model of the Python builtin `int(s)` on strings: surrounding whitespace
is stripped, an optional single sign is allowed, and the rest must be a
decimal digit string with optional single underscores between digits;
`none` models the `ValueError` raised otherwise. -/
def pyStrToInt (s : String) : Option Int :=
  let cs := ((s.data.dropWhile Char.isWhitespace).reverse.dropWhile
      Char.isWhitespace).reverse
  match cs with
  | [] => none
  | c :: rest =>
      let (sign, body) : Int × List Char :=
        if c = '-' then (-1, rest)
        else if c = '+' then (1, rest)
        else (1, cs)
      if pyIntBody body then some (sign * digitsVal (body.filter (fun d => d ≠ '_')))
      else none

/-- Split a character list at every `'.'` and `'-'`, keeping empty pieces,
exactly like `re.compile(r"[.\-]").split`. -/
def splitSepChars : List Char → List (List Char)
  | [] => [[]]
  | c :: rest =>
      let r := splitSepChars rest
      if c = '.' ∨ c = '-' then [] :: r
      else
        match r with
        | [] => [[c]]
        | h :: t => (c :: h) :: t

/-- The dot/dash-separated tokens of a version string. -/
def splitVersionTokens (s : String) : List String :=
  (splitSepChars s.data).map String.mk

/-- `re.match(r"(.*)(MariaDB)(.*)", n)`: with the greedy first group, the
match (when the token contains the marker at all) splits the token around
the LAST occurrence of `"MariaDB"`, yielding the text before and after it. -/
def mariadbSplit (s : String) : Option (String × String) :=
  let cs := s.data
  let pat := "MariaDB".data
  let hits := (List.range (cs.length + 1)).filter
      (fun i => pat.isPrefixOf (cs.drop i))
  match hits.getLast? with
  | none => none
  | some i => some (String.mk (cs.take i), String.mk (cs.drop (i + pat.length)))

/-- A component of a parsed server-version tuple: Python appends either an
`int` or a plain string. -/
inductive VComp where
  | int (n : Int)
  | str (s : String)
  deriving DecidableEq, Repr

/-- The contribution of one dot/dash-separated token to the version tuple in
`AiomysqlDialect._parse_server_version`: an integer when `int(n)` succeeds,
otherwise the non-empty groups of the `(.*)(MariaDB)(.*)` match when the
token carries the MariaDB marker, otherwise the token itself as a string. -/
def parseVersionToken (n : String) : List VComp :=
  match pyStrToInt n with
  | some k => [VComp.int k]
  | none =>
      match mariadbSplit n with
      | some (pre, post) =>
          (if pre = "" then [] else [VComp.str pre])
            ++ [VComp.str "MariaDB"]
            ++ (if post = "" then [] else [VComp.str post])
      | none => [VComp.str n]

/-- `AiomysqlDialect._parse_server_version` (aiomysql.py lines 427-439):
split the version string on `.` and `-`, parse every token in order, and
concatenate the contributions into one tuple. -/
def AiomysqlDialect._parse_server_version (val : String) : List VComp :=
  ((splitVersionTokens val).map parseVersionToken).flatten

/-- A token free of the two separator characters. -/
def sepFree (t : String) : Bool :=
  t.data.all (fun c => c ≠ '.' ∧ c ≠ '-')

/-- Join tokens with a dot separator (character-level, used to state how the
parser respects token order). -/
def dotJoined : List String → String
  | [] => ""
  | [t] => t
  | t :: rest => String.mk (t.data ++ '.' :: (dotJoined rest).data)

/-- A token consisting purely of decimal digits (the claim's "all-numeric"
tokens). -/
def allNumericToken (t : String) : Bool :=
  (!t.data.isEmpty) && t.data.all Char.isDigit

/-- `level.replace("_", " ")`: the normalization step of
`AiomysqlDialect.set_isolation_level`. -/
def normalize_isolation_level (level : String) : String :=
  String.mk (level.data.map (fun c => if c = '_' then ' ' else c))

/-- The `sqlalchemy.exc.ArgumentError` message raised by
`AiomysqlDialect._set_isolation_level` for an unrecognized level: it embeds
the offending (already normalized) value, the dialect name and the
comma-joined valid set. -/
def invalid_level_message (level dialectName : String) (lookup : List String) :
    String :=
  "Invalid value '" ++ level ++ "' for isolation_level. " ++
    "Valid isolation levels for " ++ dialectName ++ " are " ++
    String.intercalate ", " lookup

/-- Result of `_set_isolation_level`: the SQL statements actually issued on
the connection (in order) and the error, if any. -/
structure SetIsoOutcome where
  cmds : List ConnOp
  err : Option String
  deriving DecidableEq, Repr

/-- `AiomysqlDialect._set_isolation_level` (aiomysql.py lines 379-390).
`lookup` is the dialect's `_isolation_lookup` (modelled as an ordered list of
the recognized level names), `dialectName` is `self.name`.  An unrecognized
level raises `ArgumentError` before any cursor work, so no statement is
issued; a recognized one issues the SET command followed by COMMIT. -/
def AiomysqlDialect._set_isolation_level (lookup : List String)
    (dialectName level : String) : SetIsoOutcome :=
  if level ∉ lookup then
    { cmds := [], err := some (invalid_level_message level dialectName lookup) }
  else
    { cmds := [ConnOp.execute ("SET SESSION TRANSACTION ISOLATION LEVEL " ++ level),
               ConnOp.execute "COMMIT"],
      err := none }

/-- `AiomysqlDialect.set_isolation_level` (aiomysql.py lines 375-377):
normalize first (underscores to spaces), then validate and apply. -/
def AiomysqlDialect.set_isolation_level (lookup : List String)
    (dialectName level : String) : SetIsoOutcome :=
  AiomysqlDialect._set_isolation_level lookup dialectName
    (normalize_isolation_level level)

/-- The dialect-level `Transaction` object (aiomysql.py lines 283-301): the
held connection and the optional isolation-setter closure bound at
construction.  Applying the setter to the connection yields the statements
it issues and its error, if any. -/
structure Transaction where
  conn : Nat
  set_isolation : Option (Nat → SetIsoOutcome)

/-- `Transaction.begin` (aiomysql.py lines 292-295): issue `conn.begin()`,
then, only when an isolation-setter is bound, apply it to the held
connection.  Returns the connection operations in issuance order and the
setter's error, if any. -/
def Transaction.begin (tx : Transaction) : List ConnOp × Option String :=
  match tx.set_isolation with
  | none => ([ConnOp.begin], none)
  | some f =>
      let o := f tx.conn
      (ConnOp.begin :: o.cmds, o.err)

/-- `AiomysqlDialect.transaction` (aiomysql.py lines 358-363): bind an
isolation setter (a closure applying `set_isolation_level` with the level
from the options) exactly when the options carry an `isolation` entry. -/
def AiomysqlDialect.transaction (lookup : List String) (dialectName : String)
    (raw_conn : Nat) (isolation : Option String) : Transaction :=
  match isolation with
  | none => { conn := raw_conn, set_isolation := none }
  | some lvl =>
      { conn := raw_conn,
        set_isolation :=
          some (fun _ => AiomysqlDialect.set_isolation_level lookup dialectName lvl) }

/-- The connection trace of one transaction-scoped session: everything
`begin()` issued, followed by the caller's own statements. -/
def tx_session_trace (tx : Transaction) (stmts : List ConnOp) : List ConnOp :=
  (Transaction.begin tx).1 ++ stmts

/-- The states of the transaction life cycle (spec section 4.4). -/
inductive TxState where
  | notStarted
  | active
  | committed
  | rolledBack
  deriving DecidableEq, Repr

/-- `InvalidTransactionStateError` (spec section 7). -/
inductive TxStateErr where
  | invalidTransactionState
  deriving DecidableEq, Repr

/-- The statements the src `Transaction.commit` issues (line 298:
`await self._conn.commit()`). -/
def Transaction.commit_cmds : List ConnOp := [ConnOp.commit]

/-- The statements the src `Transaction.rollback` issues (line 301:
`await self._conn.rollback()`). -/
def Transaction.rollback_cmds : List ConnOp := [ConnOp.rollback]

/-- Modelled from the spec: the transaction wrapper enforcing the
NotStarted/Active/Committed/RolledBack state machine lives outside src/
(src/src/gino/dialects/aiomysql.py only contains the dialect `Transaction`
with the raw begin/commit/rollback commands).  Per spec section 4.4,
`commit()` is valid only from Active, where it issues the underlying commit
command (the src `Transaction.commit`) and moves to Committed; from any
other state it raises `InvalidTransactionStateError` and issues nothing. -/
def managed_commit (s : TxState) : TxState × List ConnOp × Option TxStateErr :=
  match s with
  | TxState.active => (TxState.committed, Transaction.commit_cmds, none)
  | _ => (s, [], some TxStateErr.invalidTransactionState)

/-- Modelled from the spec: see `managed_commit`; `rollback()` is valid only
from Active, where it issues the underlying rollback command (the src
`Transaction.rollback`) and moves to RolledBack; from any other state it
raises `InvalidTransactionStateError` and issues nothing. -/
def managed_rollback (s : TxState) : TxState × List ConnOp × Option TxStateErr :=
  match s with
  | TxState.active => (TxState.rolledBack, Transaction.rollback_cmds, none)
  | _ => (s, [], some TxStateErr.invalidTransactionState)

/-- Python raises `TypeError` when ordering incomparable tuple components
(an `int` against a `str`). -/
inductive PyCmpErr where
  | typeError
  deriving DecidableEq, Repr

/-- Python tuple `>=` on version tuples: lexicographic; walk past equal
components, decide at the first differing pair (same-type components compare
by their own order, mixed `int`/`str` raises `TypeError`), and with one
tuple a prefix of the other the longer one is greater. -/
def vlistGE : List VComp → List VComp → Except PyCmpErr Bool
  | [], [] => Except.ok true
  | [], _ :: _ => Except.ok false
  | _ :: _, [] => Except.ok true
  | a :: xs, b :: ys =>
      if a = b then vlistGE xs ys
      else
        match a, b with
        | VComp.int x, VComp.int y => Except.ok (decide (y < x))
        | VComp.str x, VComp.str y => Except.ok (decide (y < x))
        | _, _ => Except.error PyCmpErr.typeError

/-- The introspection query chosen by `get_isolation_level` (lines 397-400):
`SELECT @@transaction_isolation` for MySQL at version `(5, 7, 20)` or newer,
`SELECT @@tx_isolation` otherwise; the version comparison may raise. -/
def isolation_query (is_mysql : Bool) (v : List VComp) : Except PyCmpErr String :=
  if is_mysql then
    match vlistGE v [VComp.int 5, VComp.int 7, VComp.int 20] with
    | Except.ok true => Except.ok "SELECT @@transaction_isolation"
    | Except.ok false => Except.ok "SELECT @@tx_isolation"
    | Except.error e => Except.error e
  else Except.ok "SELECT @@tx_isolation"

/-- Errors of `get_isolation_level`: the `NotImplementedError` raised when
the server returns no isolation row, or a `TypeError` from comparing a
mixed version tuple. -/
inductive GetIsoErr where
  | noIsolationRow
  | typeError
  deriving DecidableEq, Repr

/-- The responses of one raw connection, fixed per connection object: the
string `SELECT VERSION()` returns, and the (optional) row returned by the
isolation introspection query. -/
structure ConnOracle where
  versionStr : String
  isoRow : Option String
  deriving DecidableEq, Repr

/-- The dialect state `get_isolation_level` touches: the flag backing
`self._is_mysql` and the cached `self.server_version_info`. -/
structure DialectState where
  is_mysql : Bool
  server_version_info : Option (List VComp)
  deriving DecidableEq, Repr

/-- `val.upper().replace("-", " ")` (line 412). -/
def upper_space (s : String) : String :=
  String.mk (s.data.map (fun c =>
    let u := c.toUpper
    if u = '-' then ' ' else u))

/-- `AiomysqlDialect._get_server_version_info` (aiomysql.py lines 414-425):
issue `SELECT VERSION()` over the wire and parse the returned string. -/
def AiomysqlDialect._get_server_version_info (conn : ConnOracle) :
    List VComp × List ConnOp :=
  (AiomysqlDialect._parse_server_version conn.versionStr,
   [ConnOp.execute "SELECT VERSION()"])

/-- The tail of `get_isolation_level` after the server version `v` is known:
choose the version-appropriate introspection query, run it, and normalize
the result; `evs0` are the statements already issued (the version query, on
a cache miss). -/
def get_isolation_tail (d : DialectState) (v : List VComp) (conn : ConnOracle)
    (evs0 : List ConnOp) : DialectState × List ConnOp × Except GetIsoErr String :=
  match isolation_query d.is_mysql v with
  | Except.error _ => (d, evs0, Except.error GetIsoErr.typeError)
  | Except.ok q =>
      match conn.isoRow with
      | none => (d, evs0 ++ [ConnOp.execute q], Except.error GetIsoErr.noIsolationRow)
      | some row0 => (d, evs0 ++ [ConnOp.execute q], Except.ok (upper_space row0))

/-- `AiomysqlDialect.get_isolation_level` (aiomysql.py lines 392-412): when
`self.server_version_info` is unset, resolve it over the wire (issuing
`SELECT VERSION()`) and store it on the dialect before anything else; a
populated cache is reused as-is.  Returns the new dialect state, the
statements issued on the connection, and the result. -/
def AiomysqlDialect.get_isolation_level (d : DialectState) (conn : ConnOracle) :
    DialectState × List ConnOp × Except GetIsoErr String :=
  match d.server_version_info with
  | some v => get_isolation_tail d v conn []
  | none =>
      let (v, evs) := AiomysqlDialect._get_server_version_info conn
      get_isolation_tail { d with server_version_info := some v } v conn evs

/-- Iterate `get_isolation_level` on the same connection object, threading
the dialect state; collects all statements issued across the calls. -/
def run_get_isolation_calls (d : DialectState) (conn : ConnOracle) :
    Nat → DialectState × List ConnOp
  | 0 => (d, [])
  | n + 1 =>
      let r := AiomysqlDialect.get_isolation_level d conn
      let rest := run_get_isolation_calls r.1 conn n
      (rest.1, r.2.1 ++ rest.2)

/-- How many of the issued statements are wire queries for the server
version. -/
def version_query_count (evs : List ConnOp) : Nat :=
  (evs.filter (fun e => e = ConnOp.execute "SELECT VERSION()")).length

/-! ### Helper lemmas -/

theorem wait_for_timedOut_lt {t d : Rat}
    (h : wait_for (some t) d = WaitRes.timedOut) : t < d := by
  simp only [wait_for] at h
  by_cases h1 : t ≤ 0
  · rw [if_pos h1] at h
    by_cases h2 : d ≤ 0
    · rw [if_pos h2] at h; simp at h
    · exact lt_of_le_of_lt h1 (lt_of_not_le h2)
  · rw [if_neg h1] at h
    by_cases h2 : d ≤ t
    · rw [if_pos h2] at h; simp at h
    · exact lt_of_not_le h2

/-- C1: whenever the post-connect hook raises during `Pool.acquire`, the
acquired connection is released back to the pool (the final idle set holds
it and is a permutation of the initial one), the hook's error is re-raised
with its payload unchanged, and the caller never receives a connection
together with the failure. -/
theorem pool_acquire_hook_failure_releases {E : Type}
    (hook : Nat → Except E Unit) (tm : Option Rat) (d : Rat)
    (p : RawPoolState) (c : Nat) (rest : List Nat) (e : E)
    (hidle : p.idle = c :: rest)
    (hwait : wait_for tm d = WaitRes.ok)
    (hhook : hook c = Except.error e) :
    Pool.acquire (some hook) tm d p
      = (Except.error (AcquireErr.hookFailed e),
         { idle := rest ++ [c], nextFresh := p.nextFresh })
    ∧ ((Pool.acquire (some hook) tm d p).2.idle).Perm p.idle
    ∧ c ∈ (Pool.acquire (some hook) tm d p).2.idle
    ∧ ∀ c' : Nat, (Pool.acquire (some hook) tm d p).1 ≠ Except.ok c' := by
  have heq : Pool.acquire (some hook) tm d p
      = (Except.error (AcquireErr.hookFailed e),
         { idle := rest ++ [c], nextFresh := p.nextFresh }) := by
    unfold Pool.acquire
    rw [hwait]
    simp only [rawAcquire, hidle, rawRelease, hhook]
  refine ⟨heq, ?_, ?_, ?_⟩
  · rw [heq, hidle]
    exact List.perm_append_singleton c rest
  · rw [heq]
    simp
  · intro c'
    rw [heq]
    simp

/-- Closed witness for `pool_acquire_hook_failure_releases`. -/
theorem pool_acquire_hook_failure_releases_witness :
    Pool.acquire (some (fun _ => Except.error "boom")) (some 10) 1
        ⟨[4, 5], 9⟩
      = (Except.error (AcquireErr.hookFailed "boom"), ⟨[5, 4], 9⟩)
    ∧ ((Pool.acquire (some (fun _ : Nat => Except.error "boom")) (some 10) 1
        ⟨[4, 5], 9⟩).2.idle).Perm [4, 5]
    ∧ 4 ∈ (Pool.acquire (some (fun _ : Nat => Except.error "boom")) (some 10) 1
        ⟨[4, 5], 9⟩).2.idle
    ∧ ∀ c' : Nat,
        (Pool.acquire (some (fun _ : Nat => Except.error "boom")) (some 10) 1
          ⟨[4, 5], 9⟩).1 ≠ Except.ok c' :=
  pool_acquire_hook_failure_releases (fun _ => Except.error "boom")
    (some 10) 1 ⟨[4, 5], 9⟩ 4 [5] "boom" rfl (by decide) rfl

/-- C8: acquiring with an unbounded budget never fails with the acquire
timeout error, however long the underlying pool takes; the timeout error can
only arise from a bounded budget, and only when the wait exceeds the
remaining duration. -/
theorem acquire_unbounded_never_times_out {E : Type} :
    (∀ (conn_init : Option (Nat → Except E Unit)) (d : Rat) (p : RawPoolState),
        (Pool.acquire conn_init none d p).1 ≠ Except.error AcquireErr.timeout)
    ∧ (∀ (conn_init : Option (Nat → Except E Unit)) (tm : Option Rat) (d : Rat)
          (p : RawPoolState),
        (Pool.acquire conn_init tm d p).1 = Except.error AcquireErr.timeout →
        ∃ t : Rat, tm = some t ∧ t < d) := by
  have hok : ∀ (conn_init : Option (Nat → Except E Unit)) (tm : Option Rat)
      (d : Rat) (p : RawPoolState), wait_for tm d = WaitRes.ok →
      (Pool.acquire conn_init tm d p).1 ≠ Except.error AcquireErr.timeout := by
    intro conn_init tm d p hw
    unfold Pool.acquire
    rw [hw]
    cases conn_init with
    | none => simp
    | some hook =>
        cases hhk : hook (rawAcquire p).1 with
        | ok _ => simp [hhk]
        | error e => simp [hhk]
  constructor
  · intro conn_init d p
    exact hok conn_init none d p rfl
  · intro conn_init tm d p herr
    cases tm with
    | none => exact absurd herr (hok conn_init none d p rfl)
    | some t =>
        refine ⟨t, rfl, ?_⟩
        cases hw : wait_for (some t) d with
        | ok => exact absurd herr (hok conn_init (some t) d p hw)
        | timedOut => exact wait_for_timedOut_lt hw

/-- Closed witness for `acquire_unbounded_never_times_out`. -/
theorem acquire_unbounded_never_times_out_witness :
    (Pool.acquire (E := String) none none 500 ⟨[7], 0⟩).1
      ≠ Except.error AcquireErr.timeout
    ∧ ∃ t : Rat, some (1 : Rat) = some t ∧ t < 2 :=
  ⟨(acquire_unbounded_never_times_out (E := String)).1 none 500 ⟨[7], 0⟩,
   (acquire_unbounded_never_times_out (E := String)).2 none (some 1) 2 ⟨[7], 0⟩
     (by rfl)⟩

/-- C2 counterexample: with a bounded budget of 1 fully consumed by the
acquire step, the remaining budget is `0 ≤ 0`, yet `async_execute`'s next
wait (the `conn.query` call, which the source issues with no timeout
argument) completes after an arbitrarily long wait instead of failing
immediately with a timeout error. -/
theorem async_execute_budget_not_threaded_cex :
    (1 : Rat) - 1 ≤ 0
    ∧ DBAPICursor.async_execute_chain (some 1) 1 1000
        = ExecOutcome.executed (some 0)
    ∧ DBAPICursor.async_execute_chain (some 1) 1 1000
        ≠ ExecOutcome.acquireTimedOut := by
  have hw : wait_for (some (1 : Rat)) 1 = WaitRes.ok := by
    simp only [wait_for]
    norm_num
  have heq : DBAPICursor.async_execute_chain (some 1) 1 1000
      = ExecOutcome.executed (some 0) := by
    simp only [DBAPICursor.async_execute_chain]
    rw [hw]
    norm_num [wait_for]
  refine ⟨by norm_num, heq, by rw [heq]; simp⟩

/-- C2 (amended): in the acquire-then-prepare chain a bounded budget always
stays bounded — the acquire step's elapsed time is subtracted and the
remainder (even when zero or negative) is what `conn.prepare` receives — and
an exhausted remainder makes the prepare wait fail immediately with a
timeout error; in the acquire-then-execute chain the elapsed time is
likewise subtracted, but the remaining budget is not passed to the execute
step, which is issued without a timeout and never fails however long it
takes. -/
theorem timeout_budget_threading_amended :
    (∀ t acquireDur prepareDur : Rat,
        DBAPICursor.prepare_chain (some t) acquireDur prepareDur
            = PrepOutcome.acquireTimedOut
        ∨ DBAPICursor.prepare_chain (some t) acquireDur prepareDur
            = PrepOutcome.prepareTimedOut (some (t - acquireDur))
        ∨ DBAPICursor.prepare_chain (some t) acquireDur prepareDur
            = PrepOutcome.prepared (some (t - acquireDur)))
    ∧ (∀ t acquireDur prepareDur : Rat,
        wait_for (some t) acquireDur = WaitRes.ok →
        t - acquireDur ≤ 0 → 0 < prepareDur →
        DBAPICursor.prepare_chain (some t) acquireDur prepareDur
          = PrepOutcome.prepareTimedOut (some (t - acquireDur)))
    ∧ (∀ t acquireDur queryDur : Rat,
        wait_for (some t) acquireDur = WaitRes.ok →
        DBAPICursor.async_execute_chain (some t) acquireDur queryDur
          = ExecOutcome.executed (some (t - acquireDur))) := by
  refine ⟨?_, ?_, ?_⟩
  · intro t a pd
    simp only [DBAPICursor.prepare_chain]
    cases h1 : wait_for (some t) a with
    | timedOut => exact Or.inl rfl
    | ok =>
        cases h2 : wait_for (some (t - a)) pd with
        | timedOut => exact Or.inr (Or.inl rfl)
        | ok => exact Or.inr (Or.inr rfl)
  · intro t a pd hw hrem hpd
    simp only [DBAPICursor.prepare_chain]
    rw [hw]
    have h2 : wait_for (some (t - a)) pd = WaitRes.timedOut := by
      simp only [wait_for, if_pos hrem, if_neg (not_le.mpr hpd)]
    rw [h2]
  · intro t a qd hw
    simp only [DBAPICursor.async_execute_chain]
    rw [hw]
    cases wait_for none qd <;> rfl

/-- Closed witness for `timeout_budget_threading_amended`. -/
theorem timeout_budget_threading_amended_witness :
    (DBAPICursor.prepare_chain (some 5) 2 1 = PrepOutcome.acquireTimedOut
      ∨ DBAPICursor.prepare_chain (some 5) 2 1
          = PrepOutcome.prepareTimedOut (some ((5 : Rat) - 2))
      ∨ DBAPICursor.prepare_chain (some 5) 2 1
          = PrepOutcome.prepared (some ((5 : Rat) - 2)))
    ∧ DBAPICursor.prepare_chain (some 3) 3 7
        = PrepOutcome.prepareTimedOut (some ((3 : Rat) - 3))
    ∧ DBAPICursor.async_execute_chain (some 3) 3 7
        = ExecOutcome.executed (some ((3 : Rat) - 3)) :=
  ⟨timeout_budget_threading_amended.1 5 2 1,
   timeout_budget_threading_amended.2.1 3 3 7 (by rfl) (by norm_num) (by norm_num),
   timeout_budget_threading_amended.2.2 3 3 7 (by rfl)⟩

/-- C9: `_escape_args` escapes tuples and lists elementwise into a tuple
preserving element order, escapes dict values while keeping the key list
unchanged, escapes any other value directly as a scalar, and a scalar
escaping failure surfaces to the caller unchanged. -/
theorem escape_args_shape {V E : Type} :
    (∀ (escape : V → Except E V) (f : V → V),
        (∀ v, escape v = Except.ok (f v)) →
        (∀ elems : List V,
            DBAPICursor._escape_args escape (PyArgs.tup elems)
              = Except.ok (PyArgs.tup (elems.map f))
            ∧ DBAPICursor._escape_args escape (PyArgs.lst elems)
              = Except.ok (PyArgs.tup (elems.map f)))
        ∧ (∀ pairs : List (String × V),
            DBAPICursor._escape_args escape (PyArgs.dct pairs)
              = Except.ok (PyArgs.dct (pairs.map (fun kv => (kv.1, f kv.2))))
            ∧ (pairs.map (fun kv => (kv.1, f kv.2))).map Prod.fst
              = pairs.map Prod.fst)
        ∧ (∀ v : V,
            DBAPICursor._escape_args escape (PyArgs.scalar v)
              = Except.ok (PyArgs.scalar (f v))))
    ∧ (∀ (escape : V → Except E V) (v : V) (e : E),
        escape v = Except.error e →
        DBAPICursor._escape_args escape (PyArgs.scalar v) = Except.error e) := by
  have hmap : ∀ (escape : V → Except E V) (f : V → V),
      (∀ v, escape v = Except.ok (f v)) →
      ∀ elems : List V, mapExcept escape elems = Except.ok (elems.map f) := by
    intro escape f htot elems
    induction elems with
    | nil => rfl
    | cons v rest ih =>
        simp only [mapExcept, htot v, ih, Except.map, List.map_cons]
  have hmapkv : ∀ (escape : V → Except E V) (f : V → V),
      (∀ v, escape v = Except.ok (f v)) →
      ∀ pairs : List (String × V),
        mapExcept (fun kv : String × V => (escape kv.2).map (fun w => (kv.1, w)))
            pairs
          = Except.ok (pairs.map (fun kv => (kv.1, f kv.2))) := by
    intro escape f htot pairs
    induction pairs with
    | nil => rfl
    | cons kv rest ih =>
        have hh : (escape kv.2).map (fun w => (kv.1, w))
            = Except.ok (kv.1, f kv.2) := by
          rw [htot kv.2]; rfl
        simp only [mapExcept]
        rw [hh]
        dsimp only
        rw [ih]
        rfl
  refine ⟨?_, ?_⟩
  · intro escape f htot
    refine ⟨?_, ?_, ?_⟩
    · intro elems
      constructor <;>
        · simp only [DBAPICursor._escape_args]
          rw [hmap escape f htot elems]
          rfl
    · intro pairs
      refine ⟨?_, ?_⟩
      · simp only [DBAPICursor._escape_args]
        rw [hmapkv escape f htot pairs]
        rfl
      · simp
    · intro v
      simp only [DBAPICursor._escape_args]
      rw [htot v]
      rfl
  · intro escape v e herr
    simp only [DBAPICursor._escape_args]
    rw [herr]
    rfl

/-- Closed witness for `escape_args_shape`. -/
theorem escape_args_shape_witness :
    (DBAPICursor._escape_args (fun s : String => (Except.ok (s ++ "!") : Except Unit String))
        (PyArgs.lst ["a", "b"])
      = Except.ok (PyArgs.tup ["a!", "b!"]))
    ∧ DBAPICursor._escape_args
        (fun _ : String => (Except.error () : Except Unit String))
        (PyArgs.scalar "x")
      = Except.error () := by
  constructor
  · have h := ((escape_args_shape (V := String) (E := Unit)).1
      (fun s => Except.ok (s ++ "!")) (fun s => s ++ "!")
      (fun _ => rfl)).1 ["a", "b"]
    exact h.2
  · exact (escape_args_shape (V := String) (E := Unit)).2
      (fun _ => Except.error ()) "x" () rfl

/-- C10: the streaming cursor's single-row `next` returns the no-row
sentinel whenever the fetched row is falsy — both when the driver yields no
row and when it yields an empty row — without invoking the row
post-processing pipeline; a truthy row is post-processed exactly once and
returned. -/
theorem cursor_next_falsy_row {A B : Type} (process : List A → B) :
    AiomysqlCursor.next process none = (none, 0)
    ∧ AiomysqlCursor.next process (some ([] : List A)) = (none, 0)
    ∧ ∀ row : List A, row ≠ [] →
        AiomysqlCursor.next process (some row) = (some (process row), 1) := by
  refine ⟨rfl, rfl, ?_⟩
  intro row hrow
  cases row with
  | nil => exact absurd rfl hrow
  | cons a rest => rfl

/-- C4: `set_isolation_level` first normalizes the level name (underscores
to spaces) and validates the normalized name against the dialect's
recognized set; an unrecognized normalized name fails with the
unsupported-isolation-level error, whose message embeds the offending value
and the comma-joined valid set, and issues no statement at all on the
connection; a recognized one issues the SET command (with the normalized
name) followed by COMMIT. -/
theorem set_isolation_level_rejects_unknown (lookup : List String)
    (dialectName level : String) :
    (normalize_isolation_level level ∉ lookup →
      AiomysqlDialect.set_isolation_level lookup dialectName level
        = { cmds := [],
            err := some (invalid_level_message (normalize_isolation_level level)
                          dialectName lookup) })
    ∧ (normalize_isolation_level level ∈ lookup →
      AiomysqlDialect.set_isolation_level lookup dialectName level
        = { cmds := [ConnOp.execute ("SET SESSION TRANSACTION ISOLATION LEVEL "
                      ++ normalize_isolation_level level),
                     ConnOp.execute "COMMIT"],
            err := none })
    ∧ invalid_level_message (normalize_isolation_level level) dialectName lookup
      = "Invalid value '" ++ normalize_isolation_level level
          ++ "' for isolation_level. " ++ "Valid isolation levels for "
          ++ dialectName ++ " are " ++ String.intercalate ", " lookup := by
  refine ⟨?_, ?_, rfl⟩
  · intro h
    simp only [AiomysqlDialect.set_isolation_level,
      AiomysqlDialect._set_isolation_level, if_pos h]
  · intro h
    simp only [AiomysqlDialect.set_isolation_level,
      AiomysqlDialect._set_isolation_level]
    rw [if_neg (by simpa using h)]

/-- Closed witness for `set_isolation_level_rejects_unknown`. -/
theorem set_isolation_level_rejects_unknown_witness :
    AiomysqlDialect.set_isolation_level
        ["READ COMMITTED", "REPEATABLE READ"] "mysql" "SNAPSHOT"
      = { cmds := [],
          err := some (invalid_level_message "SNAPSHOT" "mysql"
                        ["READ COMMITTED", "REPEATABLE READ"]) }
    ∧ AiomysqlDialect.set_isolation_level
        ["READ COMMITTED", "REPEATABLE READ"] "mysql" "REPEATABLE_READ"
      = { cmds := [ConnOp.execute
                    "SET SESSION TRANSACTION ISOLATION LEVEL REPEATABLE READ",
                   ConnOp.execute "COMMIT"],
          err := none } :=
  ⟨(set_isolation_level_rejects_unknown
      ["READ COMMITTED", "REPEATABLE READ"] "mysql" "SNAPSHOT").1 (by decide),
   (set_isolation_level_rejects_unknown
      ["READ COMMITTED", "REPEATABLE READ"] "mysql" "REPEATABLE_READ").2.1
     (by decide)⟩

/-- C5: `begin()` on a transaction constructed by the dialect issues the
underlying begin command first; exactly when an isolation level was bound at
construction, the isolation setter's statements follow immediately, so in
the session trace the isolation statements sit strictly after the begin
command and strictly before every caller-issued statement; with no bound
setter, `begin()` issues only the begin command. -/
theorem transaction_begin_isolation_order (lookup : List String)
    (dialectName : String) (c : Nat) (lvl : String) (stmts : List ConnOp) :
    Transaction.begin (AiomysqlDialect.transaction lookup dialectName c none)
      = ([ConnOp.begin], none)
    ∧ (Transaction.begin
        (AiomysqlDialect.transaction lookup dialectName c (some lvl))).1
      = ConnOp.begin
          :: (AiomysqlDialect.set_isolation_level lookup dialectName lvl).cmds
    ∧ tx_session_trace
        (AiomysqlDialect.transaction lookup dialectName c (some lvl)) stmts
      = ConnOp.begin
          :: ((AiomysqlDialect.set_isolation_level lookup dialectName lvl).cmds
              ++ stmts)
    ∧ (tx_session_trace
        (AiomysqlDialect.transaction lookup dialectName c (some lvl)) stmts).get? 0
      = some ConnOp.begin
    ∧ (∀ i : Nat,
        i < (AiomysqlDialect.set_isolation_level lookup dialectName lvl).cmds.length →
        (tx_session_trace
          (AiomysqlDialect.transaction lookup dialectName c (some lvl)) stmts).get?
            (1 + i)
          = (AiomysqlDialect.set_isolation_level lookup dialectName lvl).cmds.get? i)
    ∧ (∀ j : Nat,
        (tx_session_trace
          (AiomysqlDialect.transaction lookup dialectName c (some lvl)) stmts).get?
            (1 + (AiomysqlDialect.set_isolation_level lookup dialectName lvl).cmds.length
              + j)
          = stmts.get? j) := by
  have htr : tx_session_trace
      (AiomysqlDialect.transaction lookup dialectName c (some lvl)) stmts
      = ConnOp.begin
          :: ((AiomysqlDialect.set_isolation_level lookup dialectName lvl).cmds
              ++ stmts) := by
    simp [tx_session_trace, Transaction.begin, AiomysqlDialect.transaction]
  refine ⟨rfl, rfl, htr, ?_, ?_, ?_⟩
  · rw [htr]; rfl
  · intro i hi
    rw [htr]
    have h1 : (1 + i) = i + 1 := by omega
    rw [h1, List.get?_cons_succ]
    exact List.get?_append hi
  · intro j
    rw [htr]
    have h1 : 1 + (AiomysqlDialect.set_isolation_level lookup dialectName lvl).cmds.length + j
        = ((AiomysqlDialect.set_isolation_level lookup dialectName lvl).cmds.length + j) + 1 := by
      omega
    rw [h1, List.get?_cons_succ, List.get?_append_right (by omega)]
    congr 1
    omega

/-- Closed witness for `transaction_begin_isolation_order`. -/
theorem transaction_begin_isolation_order_witness :
    Transaction.begin
        (AiomysqlDialect.transaction ["REPEATABLE READ"] "mysql" 1 none)
      = ([ConnOp.begin], none)
    ∧ (tx_session_trace
        (AiomysqlDialect.transaction ["REPEATABLE READ"] "mysql" 1
          (some "REPEATABLE READ"))
        [ConnOp.execute "SELECT 1"]).get? 0 = some ConnOp.begin
    ∧ (tx_session_trace
        (AiomysqlDialect.transaction ["REPEATABLE READ"] "mysql" 1
          (some "REPEATABLE READ"))
        [ConnOp.execute "SELECT 1"]).get? 3
      = some (ConnOp.execute "SELECT 1") := by
  have h := transaction_begin_isolation_order ["REPEATABLE READ"] "mysql" 1
    "REPEATABLE READ" [ConnOp.execute "SELECT 1"]
  refine ⟨h.1, h.2.2.2.1, ?_⟩
  have h3 := h.2.2.2.2.2 0
  simpa using h3

/-- C6: commit and rollback are valid only in the Active transaction state;
invoked from the not-started state or from a terminal state they fail with
the invalid-transaction-state error and issue no underlying command, while
from Active they issue exactly the dialect transaction's underlying
commit/rollback command and reach the matching terminal state. -/
theorem transaction_state_machine_guard (s : TxState) :
    (s ≠ TxState.active →
      managed_commit s = (s, [], some TxStateErr.invalidTransactionState)
      ∧ managed_rollback s = (s, [], some TxStateErr.invalidTransactionState))
    ∧ managed_commit TxState.active
      = (TxState.committed, Transaction.commit_cmds, none)
    ∧ managed_rollback TxState.active
      = (TxState.rolledBack, Transaction.rollback_cmds, none) := by
  refine ⟨?_, rfl, rfl⟩
  intro h
  cases s with
  | active => exact absurd rfl h
  | notStarted => exact ⟨rfl, rfl⟩
  | committed => exact ⟨rfl, rfl⟩
  | rolledBack => exact ⟨rfl, rfl⟩

theorem digit_not_ws {c : Char} (h : c.isDigit = true) :
    c.isWhitespace = false := by
  have h1 : c ≠ ' ' := by rintro rfl; exact absurd h (by decide)
  have h2 : c ≠ '\t' := by rintro rfl; exact absurd h (by decide)
  have h3 : c ≠ '\r' := by rintro rfl; exact absurd h (by decide)
  have h4 : c ≠ '\n' := by rintro rfl; exact absurd h (by decide)
  simp [Char.isWhitespace, h1, h2, h3, h4]

theorem digit_not_special {c : Char} (h : c.isDigit = true) :
    c ≠ '-' ∧ c ≠ '+' ∧ c ≠ '_' := by
  refine ⟨?_, ?_, ?_⟩ <;> rintro rfl <;> exact absurd h (by decide)

theorem noDoubleUnderscore_of_no_us (l : List Char) (h : ∀ c ∈ l, c ≠ '_') :
    noDoubleUnderscore l = true := by
  induction l with
  | nil => rfl
  | cons a rest ih =>
      cases rest with
      | nil => rfl
      | cons b rest2 =>
          have ha : a ≠ '_' := h a (List.mem_cons_self a _)
          have hrest : ∀ c ∈ b :: rest2, c ≠ '_' :=
            fun c hc => h c (List.mem_cons_of_mem a hc)
          simp [noDoubleUnderscore, ha, ih hrest]

theorem pyIntBody_of_digits (l : List Char) (hne : l ≠ [])
    (hdig : ∀ c ∈ l, c.isDigit = true) : pyIntBody l = true := by
  rcases List.eq_nil_or_concat l with rfl | ⟨L, b, rfl⟩
  · exact absurd rfl hne
  · rw [List.concat_eq_append] at hdig ⊢
    have hb : b.isDigit = true := hdig b (by simp)
    cases L with
    | nil =>
        simp [pyIntBody, noDoubleUnderscore, hb]
    | cons a L2 =>
        have ha : a.isDigit = true := hdig a (by simp)
        have hnus : noDoubleUnderscore ((a :: L2) ++ [b]) = true :=
          noDoubleUnderscore_of_no_us _
            (fun c hc => (digit_not_special (hdig c hc)).2.2)
        have hlast : ((a :: L2) ++ [b]).getLast? = some b :=
          List.getLast?_concat _
        simp only [pyIntBody, Bool.and_eq_true, List.all_eq_true,
          Bool.or_eq_true, decide_eq_true_eq]
        refine ⟨⟨⟨⟨?_, ?_⟩, ?_⟩, ?_⟩, hnus⟩
        · simp
        · intro x hx
          exact Or.inl (hdig x hx)
        · rw [List.cons_append]
          exact ha
        · rw [hlast]
          exact hb

theorem pyStrToInt_of_digits (l : List Char) (hne : l ≠ [])
    (hdig : ∀ c ∈ l, c.isDigit = true) :
    pyStrToInt (String.mk l) = some (digitsVal l) := by
  unfold pyStrToInt
  have h1 : (String.mk l).data.dropWhile Char.isWhitespace = l := by
    show l.dropWhile Char.isWhitespace = l
    cases l with
    | nil => rfl
    | cons a rest =>
        simp [List.dropWhile_cons, digit_not_ws (hdig a (List.mem_cons_self a rest))]
  rw [h1]
  have h2 : l.reverse.dropWhile Char.isWhitespace = l.reverse := by
    cases hrev : l.reverse with
    | nil => rfl
    | cons a rest =>
        have ha : a ∈ l := by
          rw [← List.mem_reverse, hrev]
          exact List.mem_cons_self a rest
        simp [List.dropWhile_cons, digit_not_ws (hdig a ha)]
  rw [h2, List.reverse_reverse]
  cases l with
  | nil => exact absurd rfl hne
  | cons c rest =>
      have hc := digit_not_special (hdig c (List.mem_cons_self c rest))
      have hbody : pyIntBody (c :: rest) = true :=
        pyIntBody_of_digits (c :: rest) (by simp) hdig
      simp [hc.1, hc.2.1, hbody]
      have hfil : List.filter (fun d => !decide (d = '_')) (c :: rest)
          = c :: rest :=
        List.filter_eq_self.mpr
          (fun a ha => by simp [(digit_not_special (hdig a ha)).2.2])
      rw [hfil]

theorem splitSepChars_ne_nil (l : List Char) : splitSepChars l ≠ [] := by
  induction l with
  | nil => simp [splitSepChars]
  | cons c rest ih =>
      simp only [splitSepChars]
      by_cases h : c = '.' ∨ c = '-'
      · simp [h]
      · rw [if_neg h]
        cases hr : splitSepChars rest with
        | nil => exact absurd hr ih
        | cons a b => simp

theorem splitSepChars_no_sep (l : List Char)
    (h : ∀ c ∈ l, ¬(c = '.' ∨ c = '-')) : splitSepChars l = [l] := by
  induction l with
  | nil => rfl
  | cons c rest ih =>
      have hc := h c (List.mem_cons_self c rest)
      have hrest : ∀ x ∈ rest, ¬(x = '.' ∨ x = '-') :=
        fun x hx => h x (List.mem_cons_of_mem c hx)
      simp only [splitSepChars, if_neg hc, ih hrest]

theorem splitSepChars_append (l1 l2 : List Char)
    (h : ∀ c ∈ l1, ¬(c = '.' ∨ c = '-')) :
    ∀ hd tl, splitSepChars l2 = hd :: tl →
      splitSepChars (l1 ++ l2) = (l1 ++ hd) :: tl := by
  induction l1 with
  | nil =>
      intro hd tl hh
      simpa using hh
  | cons c r ih =>
      intro hd tl hh
      have hc := h c (List.mem_cons_self c r)
      have hr : ∀ x ∈ r, ¬(x = '.' ∨ x = '-') :=
        fun x hx => h x (List.mem_cons_of_mem c hx)
      have hrec := ih hr hd tl hh
      simp only [List.cons_append, splitSepChars, List.append_eq, if_neg hc, hrec]

theorem sepFree_chars {t : String} (h : sepFree t = true) :
    ∀ c ∈ t.data, ¬(c = '.' ∨ c = '-') := by
  intro c hc
  simp only [sepFree, List.all_eq_true] at h
  have := h c hc
  simp at this
  tauto

theorem map_mk_data (l : List String) :
    l.map (fun t => String.mk t.data) = l := by
  induction l with
  | nil => rfl
  | cons a r ih =>
      simp only [List.map_cons, ih]

theorem split_dotJoined (t0 : String) (toks : List String)
    (h : ∀ t ∈ t0 :: toks, sepFree t = true) :
    splitVersionTokens (dotJoined (t0 :: toks)) = t0 :: toks := by
  suffices hs : splitSepChars (dotJoined (t0 :: toks)).data
      = (t0 :: toks).map String.data by
    unfold splitVersionTokens
    rw [hs, List.map_map]
    exact map_mk_data (t0 :: toks)
  induction toks generalizing t0 with
  | nil =>
      exact splitSepChars_no_sep t0.data
        (sepFree_chars (h t0 (List.mem_cons_self t0 [])))
  | cons t1 rest ih =>
      have hrec := ih t1 (fun t ht => h t (List.mem_cons_of_mem t0 ht))
      have hd : (dotJoined (t0 :: t1 :: rest)).data
          = t0.data ++ '.' :: (dotJoined (t1 :: rest)).data := rfl
      rw [hd]
      have hsep : splitSepChars ('.' :: (dotJoined (t1 :: rest)).data)
          = [] :: splitSepChars (dotJoined (t1 :: rest)).data := by
        simp [splitSepChars]
      have happ := splitSepChars_append t0.data
        ('.' :: (dotJoined (t1 :: rest)).data)
        (sepFree_chars (h t0 (List.mem_cons_self t0 _)))
        [] (splitSepChars (dotJoined (t1 :: rest)).data)
        hsep
      rw [happ, hrec]
      simp

/-- C3: server-version parsing maps `"8.0.31"` to `(8, 0, 31)` and
`"5.5.5-10.3.7-MariaDB"` to a tuple ending in the literal string
`"MariaDB"`; for every input, an all-numeric dot/dash-separated token
contributes its integer value, a token carrying the vendor marker
contributes the literal string `"MariaDB"`, and the tuple concatenates the
tokens' contributions in the order the tokens appeared. -/
theorem parse_server_version_spec :
    AiomysqlDialect._parse_server_version "8.0.31"
      = [VComp.int 8, VComp.int 0, VComp.int 31]
    ∧ AiomysqlDialect._parse_server_version "5.5.5-10.3.7-MariaDB"
      = [VComp.int 5, VComp.int 5, VComp.int 5, VComp.int 10, VComp.int 3,
         VComp.int 7, VComp.str "MariaDB"]
    ∧ (∀ t : String, allNumericToken t = true →
        parseVersionToken t = [VComp.int (digitsVal t.data)])
    ∧ (∀ t : String, pyStrToInt t = none → (mariadbSplit t).isSome = true →
        VComp.str "MariaDB" ∈ parseVersionToken t)
    ∧ (∀ (t0 : String) (toks : List String),
        (∀ t ∈ t0 :: toks, sepFree t = true) →
        AiomysqlDialect._parse_server_version (dotJoined (t0 :: toks))
          = ((t0 :: toks).map parseVersionToken).flatten) := by
  refine ⟨by decide, by decide, ?_, ?_, ?_⟩
  · intro t ht
    simp only [allNumericToken, Bool.and_eq_true, Bool.not_eq_true',
      List.all_eq_true] at ht
    have hne : t.data ≠ [] := by
      intro hcon
      rw [hcon] at ht
      exact absurd ht.1 (by decide)
    have hint : pyStrToInt t = some (digitsVal t.data) :=
      pyStrToInt_of_digits t.data hne ht.2
    simp only [parseVersionToken, hint]
  · intro t h1 h2
    simp only [parseVersionToken, h1]
    cases hm : mariadbSplit t with
    | none => rw [hm] at h2; simp at h2
    | some pr =>
        cases pr with
        | mk pre post => simp
  · intro t0 toks h
    unfold AiomysqlDialect._parse_server_version
    rw [split_dotJoined t0 toks h]

/-- Closed witness for `parse_server_version_spec`. -/
theorem parse_server_version_spec_witness :
    parseVersionToken "31" = [VComp.int 31]
    ∧ VComp.str "MariaDB" ∈ parseVersionToken "MariaDB"
    ∧ AiomysqlDialect._parse_server_version (dotJoined ["8", "x"])
      = ((["8", "x"]).map parseVersionToken).flatten :=
  ⟨parse_server_version_spec.2.2.1 "31" (by decide),
   parse_server_version_spec.2.2.2.1 "MariaDB" (by decide) (by decide),
   parse_server_version_spec.2.2.2.2 "8" ["x"] (by decide)⟩

theorem isolation_query_cases (b : Bool) (v : List VComp) :
    isolation_query b v = Except.error PyCmpErr.typeError
    ∨ isolation_query b v = Except.ok "SELECT @@transaction_isolation"
    ∨ isolation_query b v = Except.ok "SELECT @@tx_isolation" := by
  unfold isolation_query
  cases b with
  | false => simp
  | true =>
      simp only [if_pos rfl]
      cases h : vlistGE v [VComp.int 5, VComp.int 7, VComp.int 20] with
      | error e => cases e; simp
      | ok bb => cases bb <;> simp

theorem version_query_count_append (a b : List ConnOp) :
    version_query_count (a ++ b) = version_query_count a + version_query_count b := by
  simp [version_query_count, List.filter_append]

theorem version_query_count_tail (d : DialectState) (v : List VComp)
    (conn : ConnOracle) (evs0 : List ConnOp) :
    version_query_count (get_isolation_tail d v conn evs0).2.1
      = version_query_count evs0
    ∧ (get_isolation_tail d v conn evs0).1 = d := by
  unfold get_isolation_tail
  rcases isolation_query_cases d.is_mysql v with h | h | h <;>
    rw [h] <;>
    [skip;
     cases conn.isoRow <;>
       simp [version_query_count_append, version_query_count];
     cases conn.isoRow <;>
       simp [version_query_count_append, version_query_count]]
  · exact ⟨rfl, rfl⟩

theorem get_isolation_level_populated (d : DialectState) (conn : ConnOracle)
    (v : List VComp) (h : d.server_version_info = some v) :
    (AiomysqlDialect.get_isolation_level d conn).1 = d
    ∧ version_query_count (AiomysqlDialect.get_isolation_level d conn).2.1 = 0 := by
  unfold AiomysqlDialect.get_isolation_level
  rw [h]
  have := version_query_count_tail d v conn []
  exact ⟨this.2, by rw [this.1]; rfl⟩

theorem get_isolation_level_unpopulated (d : DialectState) (conn : ConnOracle)
    (h : d.server_version_info = none) :
    (AiomysqlDialect.get_isolation_level d conn).1.server_version_info
      = some (AiomysqlDialect._parse_server_version conn.versionStr)
    ∧ version_query_count (AiomysqlDialect.get_isolation_level d conn).2.1 = 1 := by
  unfold AiomysqlDialect.get_isolation_level
  rw [h]
  simp only [AiomysqlDialect._get_server_version_info]
  have := version_query_count_tail
    (DialectState.mk d.is_mysql
      (some (AiomysqlDialect._parse_server_version conn.versionStr)))
    (AiomysqlDialect._parse_server_version conn.versionStr) conn
    [ConnOp.execute "SELECT VERSION()"]
  refine ⟨by rw [this.2], by rw [this.1]; rfl⟩

theorem run_calls_populated (conn : ConnOracle) (n : Nat) :
    ∀ (d : DialectState) (v : List VComp), d.server_version_info = some v →
      version_query_count (run_get_isolation_calls d conn n).2 = 0 := by
  induction n with
  | zero => intro d v h; rfl
  | succ m ih =>
      intro d v h
      have h1 := get_isolation_level_populated d conn v h
      simp only [run_get_isolation_calls, version_query_count_append]
      rw [h1.2, ih (AiomysqlDialect.get_isolation_level d conn).1 v
        (by rw [h1.1]; exact h)]

/-- C7: across any number of `get_isolation_level` calls on the same
connection object, the server version is queried over the wire at most once;
if the cached server-version tuple is already populated, no call issues the
version query at all and the dialect state is reused unchanged. -/
theorem server_version_cached_once (d : DialectState) (conn : ConnOracle)
    (n : Nat) :
    ((∃ v, d.server_version_info = some v) →
        version_query_count (run_get_isolation_calls d conn n).2 = 0)
    ∧ version_query_count (run_get_isolation_calls d conn n).2 ≤ 1
    ∧ (∀ v, d.server_version_info = some v →
        (AiomysqlDialect.get_isolation_level d conn).1 = d) := by
  refine ⟨?_, ?_, ?_⟩
  · rintro ⟨v, hv⟩
    exact run_calls_populated conn n d v hv
  · cases hsvi : d.server_version_info with
    | some v => rw [run_calls_populated conn n d v hsvi]; omega
    | none =>
        cases n with
        | zero => simp [run_get_isolation_calls, version_query_count]
        | succ m =>
            have h1 := get_isolation_level_unpopulated d conn hsvi
            simp only [run_get_isolation_calls, version_query_count_append]
            rw [h1.2,
              run_calls_populated conn m (AiomysqlDialect.get_isolation_level d conn).1
                (AiomysqlDialect._parse_server_version conn.versionStr) h1.1]
  · intro v hv
    exact (get_isolation_level_populated d conn v hv).1

/-- Closed witness for `server_version_cached_once`. -/
theorem server_version_cached_once_witness :
    version_query_count
        (run_get_isolation_calls
          { is_mysql := true, server_version_info := some [VComp.int 8] }
          { versionStr := "8.0.31", isoRow := some "READ-COMMITTED" } 3).2
      = 0
    ∧ (AiomysqlDialect.get_isolation_level
        { is_mysql := true, server_version_info := some [VComp.int 8] }
        { versionStr := "8.0.31", isoRow := some "READ-COMMITTED" }).1
      = { is_mysql := true, server_version_info := some [VComp.int 8] } :=
  ⟨(server_version_cached_once
      { is_mysql := true, server_version_info := some [VComp.int 8] }
      { versionStr := "8.0.31", isoRow := some "READ-COMMITTED" } 3).1
      ⟨[VComp.int 8], rfl⟩,
   (server_version_cached_once
      { is_mysql := true, server_version_info := some [VComp.int 8] }
      { versionStr := "8.0.31", isoRow := some "READ-COMMITTED" } 3).2.2
      [VComp.int 8] rfl⟩

/-- Closed witness for `transaction_state_machine_guard`. -/
theorem transaction_state_machine_guard_witness :
    managed_commit TxState.notStarted
      = (TxState.notStarted, [], some TxStateErr.invalidTransactionState)
    ∧ managed_rollback TxState.committed
      = (TxState.committed, [], some TxStateErr.invalidTransactionState) :=
  ⟨((transaction_state_machine_guard TxState.notStarted).1 (by decide)).1,
   ((transaction_state_machine_guard TxState.committed).1 (by decide)).2⟩

/-- Closed witness for `cursor_next_falsy_row`. -/
theorem cursor_next_falsy_row_witness :
    AiomysqlCursor.next (List.length (α := Nat)) none = (none, 0)
    ∧ AiomysqlCursor.next (List.length (α := Nat)) (some []) = (none, 0)
    ∧ AiomysqlCursor.next (List.length (α := Nat)) (some [3]) = (some 1, 1) :=
  ⟨(cursor_next_falsy_row List.length).1,
   (cursor_next_falsy_row List.length).2.1,
   (cursor_next_falsy_row List.length).2.2 [3] (by simp)⟩
